import Mathlib

/-!
# Verification of the list-lca matching and calculation engine

Shallow embedding of the core of the repository: the KBOB material matcher
and impact calculator of the `/api/lca-data` route, the ingest cleaning
step, the row aggregation operations of the results table (grouping,
deletion, manual override, CSV export, reinforcement derivation).

JavaScript numbers are modelled as exact rationals (ℚ); JS strings as
`String` with char-list based helpers mirroring `toLowerCase`, `trim`,
`includes` and `split(/\s+/)`.
-/

/-! ## Definitions -/

/-! ## String primitives (models of the JS string operations used) -/

/-- Model of `s.toLowerCase()` (ASCII case folding, which covers every
string the engine compares). -/
def strLower (s : String) : String := String.mk (s.data.map Char.toLower)

def trimChars (l : List Char) : List Char :=
  ((l.dropWhile Char.isWhitespace).reverse.dropWhile Char.isWhitespace).reverse

/-- Model of `s.trim()`. -/
def strTrim (s : String) : String := String.mk (trimChars s.data)

def charsStartWith : List Char → List Char → Bool
  | [], _ => true
  | _ :: _, [] => false
  | a :: as, b :: bs => a == b && charsStartWith as bs

def charsContain (needle : List Char) : List Char → Bool
  | [] => charsStartWith needle []
  | c :: t => charsStartWith needle (c :: t) || charsContain needle t

/-- Model of `hay.includes(needle)`. -/
def strContainsSub (hay needle : String) : Bool := charsContain needle.data hay.data

def wordsAux : List Char → List Char → List (List Char)
  | cur, [] => [cur.reverse]
  | cur, c :: t => if c.isWhitespace then cur.reverse :: wordsAux [] t else wordsAux (c :: cur) t

/-- Model of `s.split(/\s+/)`: runs of whitespace act as one separator;
the empty string yields `[""]` (the matcher only ever applies this to a
trimmed string). -/
def splitWords (s : String) : List String :=
  if s = "" then [""]
  else ((wordsAux [] s.data).filter (· ≠ [])).map String.mk

/-! ## Catalog data model (route `/api/lca-data`, `KBOBMaterial`) -/

/-- One entry of the KBOB catalog snapshot as consumed by the route.
`density` is a numeric string in the source; `none` models an absent or
empty density (`parseFloat(density || "0")` then yields `0`, see
`densityNum`), and the three impact coefficients are `number | null`. -/
structure KBOBMaterial where
  uuid : String
  nameDE : String
  density : Option ℚ
  ubp21Total : Option ℚ
  gwpTotal : Option ℚ
  primaryEnergyNonRenewableTotal : Option ℚ
deriving DecidableEq

/-- `parseFloat(material.density || "0")`. -/
def densityNum (m : KBOBMaterial) : ℚ := m.density.getD 0

/-! ## Matcher (`findBestMaterialMatch` in the route) -/

structure MaterialMapping where
  typeKey : String
  keywords : List String
  preferredTypes : List String

/-- The fixed `materialMappings` table of the route, in source order. -/
def materialMappings : List MaterialMapping :=
  [ { typeKey := "betonfertigteil"
    , keywords := ["fertigteil", "vorfabriziert", "betonfertigteil"]
    , preferredTypes := ["Betonfertigteil"] }
  , { typeKey := "beton"
    , keywords := ["beton", "concrete", "zement"]
    , preferredTypes := ["Hochbaubeton"] }
  , { typeKey := "bewehrung"
    , keywords := ["bewehrung", "armierung", "stahl"]
    , preferredTypes := ["Armierungsstahl"] }
  , { typeKey := "mauerwerk"
    , keywords := ["mauerwerk", "mauer", "ziegel"]
    , preferredTypes := ["Backstein"] }
  , { typeKey := "holz"
    , keywords := ["holz", "wood", "timber"]
    , preferredTypes := ["Brettschichtholz"] } ]

/-- One iteration of the `for (const [type, ...] of Object.entries(materialMappings))`
loop: if the label contains the category token, bump the score to at least
0.9 on a preferred-name hit (checked against the raw `nameDE`) and to at
least 0.8 per keyword hit (checked against the lowercased name). -/
def applyMapping (normalizedSearch nameDE materialName : String) (score : ℚ)
    (m : MaterialMapping) : ℚ :=
  if strContainsSub normalizedSearch m.typeKey then
    let s1 := if m.preferredTypes.any (fun pt => strContainsSub nameDE pt)
      then max score 0.9 else score
    m.keywords.foldl (fun s kw => if strContainsSub materialName kw then max s 0.8 else s) s1
  else score

/-- The category-keyword part of the per-entry score (step 3). -/
def categoryScore (normalizedSearch nameDE materialName : String) : ℚ :=
  materialMappings.foldl (applyMapping normalizedSearch nameDE materialName) 0

/-- The word-overlap fallback: +0.3 for every whitespace-separated label
word appearing as a substring of the entry's lowercased name. -/
def fallbackScore (normalizedSearch materialName : String) : ℚ :=
  (splitWords normalizedSearch).foldl
    (fun s w => if strContainsSub materialName w then s + 0.3 else s) 0

/-- Score of one catalog entry against a normalized label, mirroring the
body of `materials.forEach` in `findBestMaterialMatch`: exact match gives
1; otherwise the category-mapping score; the fallback runs only when that
score is still 0 for this entry. -/
def entryScore (normalizedSearch : String) (mat : KBOBMaterial) : ℚ :=
  let materialName := strLower mat.nameDE
  if materialName = normalizedSearch then 1
  else
    let score := categoryScore normalizedSearch mat.nameDE materialName
    if score = 0 then fallbackScore normalizedSearch materialName else score

/-- The exact-match and category-keyword part of an entry's score (steps
2–3 of the spec's matcher algorithm), without the fallback. Used to state
when the fallback governs an entry's final score. -/
def mappingScore (normalizedSearch : String) (mat : KBOBMaterial) : ℚ :=
  let materialName := strLower mat.nameDE
  if materialName = normalizedSearch then 1
  else categoryScore normalizedSearch mat.nameDE materialName

/-- `findBestMaterialMatch(searchTerm, materials)`: best entry and score,
ties won by the first-encountered entry (strict `>` comparison). -/
def findBestMaterialMatch (searchTerm : String) (materials : List KBOBMaterial) :
    Option KBOBMaterial × ℚ :=
  let normalizedSearch := strTrim (strLower searchTerm)
  materials.foldl
    (fun best m =>
      let score := entryScore normalizedSearch m
      if best.2 < score then (some m, score) else best)
    (none, 0)

/-! ### sanity checks (hand-traced against the source) -/

def betonEntry : KBOBMaterial :=
  { uuid := "u1", nameDE := "Hochbaubeton", density := some 2400
  , ubp21Total := some 380, gwpTotal := some 0.25
  , primaryEnergyNonRenewableTotal := some 1.2 }

def fooEntry : KBOBMaterial :=
  { uuid := "u2", nameDE := "foo bar", density := some 100
  , ubp21Total := some 1, gwpTotal := some 1
  , primaryEnergyNonRenewableTotal := some 1 }

/-! ## Ingest cleaning (`cleanedData` in the route's `POST`) -/

/-- A raw input item that is an object. Each field is optional; `none`
(and for the strings also `""`) models a falsy JS value. `quantity` is
`none` when `parseFloat(item.quantity)` is `NaN` (missing or unparsable),
otherwise the parsed number. -/
structure RawRecord where
  element : Option String
  material : Option String
  quantity : Option ℚ
  unit : Option String
deriving DecidableEq

/-- A raw batch member: `none` models `null`/a non-object value, for which
the route throws. -/
abbrev RawInput := Option RawRecord

/-- The shape produced by the cleaning step. -/
structure CleanItem where
  element : String
  material : String
  quantity : ℚ
  unit : String
deriving DecidableEq

/-- `value || default` for an optional string (empty string is falsy). -/
def orDefault (v : Option String) (d : String) : String :=
  match v with
  | some s => if s = "" then d else s
  | none => d

/-- Cleaning of the item at position `index`:
`item.element || `Unknown Element ${index+1}``, likewise for material,
`parseFloat(item.quantity) || 0`, `item.unit || "kg"`; a non-object item
throws. -/
def cleanOne (index : Nat) (item : RawInput) : Except String CleanItem :=
  match item with
  | none => .error ("Invalid item at index " ++ toString index ++ ": must be an object")
  | some r => .ok
      { element := orDefault r.element ("Unknown Element " ++ toString (index + 1))
      , material := orDefault r.material ("Unknown Material " ++ toString (index + 1))
      , quantity := r.quantity.getD 0
      , unit := orDefault r.unit "kg" }

/-- `data.map(...)` with a throwing callback: the first bad item aborts
the whole batch. -/
def cleanAll (index : Nat) : List RawInput → Except String (List CleanItem)
  | [] => .ok []
  | x :: xs =>
    match cleanOne index x with
    | .error e => .error e
    | .ok c => (cleanAll (index + 1) xs).map (c :: ·)

/-! ## Impact computation (`processedItems` in the route's `POST`) -/

/-- The `availableMaterials` view of a catalog entry offered for manual
override. -/
structure MaterialOption where
  id : String
  name : String
  density : ℚ
  co2 : ℚ
  ubp : ℚ
  kwh : ℚ
deriving DecidableEq

def matToOption (m : KBOBMaterial) : MaterialOption :=
  { id := m.uuid, name := m.nameDE, density := densityNum m
  , co2 := m.gwpTotal.getD 0, ubp := m.ubp21Total.getD 0
  , kwh := m.primaryEnergyNonRenewableTotal.getD 0 }

/-- The `relevantMaterials` category filter: an if-chain on the label
selecting candidate entries by name substrings, defaulting to the whole
catalog. -/
def relevantFilter (searchTerm : String) (m : KBOBMaterial) : Bool :=
  let name := strLower m.nameDE
  let s := strLower searchTerm
  if strContainsSub s "betonfertigteil" then
    strContainsSub name "fertigteil" || strContainsSub name "vorfabriziert"
  else if strContainsSub s "beton" then
    strContainsSub name "beton" || strContainsSub name "concrete"
  else if strContainsSub s "bewehrung" then
    strContainsSub name "bewehrung" || strContainsSub name "armierung"
  else if strContainsSub s "mauerwerk" then
    strContainsSub name "mauerwerk" || strContainsSub name "mauer"
  else if strContainsSub s "holz" then
    strContainsSub name "holz" || strContainsSub name "wood"
  else true

/-- One element of the route's response array. -/
structure ProcessedItem where
  element : String
  material : String
  quantity : ℚ
  unit : String
  kg : ℚ
  density : ℚ
  co2 : ℚ
  ubp : ℚ
  kwh : ℚ
  matchedMaterial : Option String
  matchScore : ℚ
  searchTerm : String
  availableMaterials : List MaterialOption
deriving DecidableEq

/-- The body of `cleanedData.map(...)` in the route: match, convert the
quantity to kg, and populate impacts only on a confident match. -/
def processItem (lcaMaterials : List KBOBMaterial) (item : CleanItem) : ProcessedItem :=
  let searchTerm := strLower item.material
  let res := findBestMaterialMatch searchTerm lcaMaterials
  let matchedMaterial := res.1
  let matchScore := res.2
  let isGoodMatch := (0.8 : ℚ) ≤ matchScore
  let kg : ℚ :=
    match matchedMaterial with
    | some m => if item.unit = "m3" then item.quantity * densityNum m else item.quantity
    | none => item.quantity
  let relevantMaterials := lcaMaterials.filter (relevantFilter searchTerm)
  { element := item.element
  , material := item.material
  , quantity := item.quantity
  , unit := item.unit
  , kg := kg
  , density := match matchedMaterial with | some m => densityNum m | none => 0
  , co2 := match matchedMaterial with
      | some m => if isGoodMatch then m.gwpTotal.getD 0 * kg else 0
      | none => 0
  , ubp := match matchedMaterial with
      | some m => if isGoodMatch then m.ubp21Total.getD 0 * kg else 0
      | none => 0
  , kwh := match matchedMaterial with
      | some m => if isGoodMatch then m.primaryEnergyNonRenewableTotal.getD 0 * kg else 0
      | none => 0
  , matchedMaterial := match matchedMaterial with
      | some m => if isGoodMatch then some m.nameDE else none
      | none => none
  , matchScore := matchScore
  , searchTerm := searchTerm
  , availableMaterials := relevantMaterials.map matToOption }

/-! ## Working rows (`MaterialData` of the results table) -/

/-- A working row of the client. `matchedMaterial` is `string | null` at
runtime (`none` models `null`), `matchScore` is `number | null`,
`density`/`area` are optional, and `isReinforcementFor` is the positional
back-reference set by the reinforcement derivation. -/
structure MaterialRow where
  element : String
  material : String
  quantity : ℚ
  unit : String
  kg : ℚ
  co2 : ℚ
  ubp : ℚ
  kwh : ℚ
  matchedMaterial : Option String
  matchScore : Option ℚ
  availableMaterials : List MaterialOption
  density : Option ℚ
  area : Option ℚ
  isReinforcementFor : Option Nat
deriving DecidableEq

/-- The key `${row.element}-${row.material}` used by `groupData`. -/
def rowKey (r : MaterialRow) : String := r.element ++ "-" ++ r.material

/-! ## Grouping (`groupData` of the results table) -/

structure RowGroup where
  element : String
  material : String
  unit : String
  quantity : ℚ
  kg : ℚ
  co2 : ℚ
  ubp : ℚ
  kwh : ℚ
  density : ℚ
  matchedMaterial : String
  matchScore : Option ℚ
  availableMaterials : List MaterialOption
  rows : List MaterialRow
deriving DecidableEq

def groupKey (g : RowGroup) : String := g.element ++ "-" ++ g.material

/-- The group created when a key is first seen: numeric aggregates start
at 0, display metadata is copied from the first row (`row.density || 0`,
`row.matchedMaterial || ""`, `row.matchScore || null`). -/
def emptyGroup (r : MaterialRow) : RowGroup :=
  { element := r.element
  , material := r.material
  , unit := r.unit
  , quantity := 0, kg := 0, co2 := 0, ubp := 0, kwh := 0
  , density := r.density.getD 0
  , matchedMaterial := r.matchedMaterial.getD ""
  , matchScore := match r.matchScore with
      | some q => if q = 0 then none else some q
      | none => none
  , availableMaterials := r.availableMaterials
  , rows := [] }

/-- The unconditional `+=` block of `groupData` (`row.kg || 0` etc. equal
the field itself on exact rationals) followed by `rows.push(row)`. -/
def addRowToGroup (g : RowGroup) (r : MaterialRow) : RowGroup :=
  { g with
    quantity := g.quantity + r.quantity
  , kg := g.kg + r.kg
  , co2 := g.co2 + r.co2
  , ubp := g.ubp + r.ubp
  , kwh := g.kwh + r.kwh
  , rows := g.rows ++ [r] }

/-- One step of the `data.reduce` accumulator: create the group on first
sight of a key (JS object keys keep first-encounter order), then add the
row to it. -/
def insertGroupRow : List RowGroup → MaterialRow → List RowGroup
  | [], r => [addRowToGroup (emptyGroup r) r]
  | g :: gs, r =>
    if groupKey g = rowKey r then addRowToGroup g r :: gs
    else g :: insertGroupRow gs r

/-- `groupData(data)`: the grouped view (`[]` when grouping is off). -/
def groupData (isGrouped : Bool) (data : List MaterialRow) : List RowGroup :=
  if isGrouped then data.foldl insertGroupRow [] else []

/-! ## Deletion (`handleDeleteRows` of `ConstructionLCACalculator`) -/

/-- `newData.splice(i, 1)`. -/
def spliceOne (xs : List α) (i : Nat) : List α := xs.take i ++ xs.drop (i + 1)

/-- Insertion into a descending list; `foldr insertDesc []` produces the
descending reordering computed by `indices.sort((a, b) => b - a)`. -/
def insertDesc (i : Int) : List Int → List Int
  | [] => [i]
  | j :: js => if j ≤ i then i :: j :: js else j :: insertDesc i js

def sortDesc (l : List Int) : List Int := l.foldr insertDesc []

/-- `handleDeleteRows`: sort the indices descending, then splice each one
that is in range of the current (already shrunk) array. Applied
identically to the working collection and the original-input store. -/
def handleDeleteRows (indices : List Int) (xs : List α) : List α :=
  (sortDesc indices).foldl
    (fun acc i =>
      if 0 ≤ i ∧ i < (acc.length : Int) then spliceOne acc i.toNat else acc)
    xs

/-- Positional specification of deletion: keep exactly the rows whose
original index is not named. -/
def keepNotIn (indices : List Int) : Nat → List α → List α
  | _, [] => []
  | n, a :: as =>
    if (n : Int) ∈ indices then keepNotIn indices (n + 1) as
    else a :: keepNotIn indices (n + 1) as

/-! ## Manual override (`handleUpdateMaterial` of `ConstructionLCACalculator`) -/

/-- A member of the `indices` argument: a number, or a row object (as
passed by grouped-view selections), which the handler first converts to a
numeric index via `findIndex` (`-1` when the row is not found). -/
inductive UpdateIndex where
  | num (value : ℚ)
  | obj (element material : String) (quantity : ℚ) (unit : String)
deriving DecidableEq

def convertIndex (rows : List MaterialRow) : UpdateIndex → ℚ
  | .num v => v
  | .obj e m q u =>
    match rows.findIdx? (fun row =>
        decide (row.element = e ∧ row.material = m ∧ row.quantity = q ∧ row.unit = u)) with
    | some i => (i : ℚ)
    | none => -1

/-- `typeof index === "number" && Number.isInteger(index) && index >= 0 &&
index < materialData.length`. -/
def isValidIndex (len : Nat) (q : ℚ) : Bool :=
  decide (q.den = 1 ∧ 0 ≤ q ∧ q < (len : ℚ))

/-- Per-row effect of a manual override: new matched name and density,
mass recomputed from the row's own quantity and unit, impacts from the
new mass and the option's per-kg coefficients. -/
def applyMaterialUpdate (row : MaterialRow) (mat : MaterialOption) : MaterialRow :=
  let kg := if row.unit = "m3" then row.quantity * mat.density else row.quantity
  { row with
    matchedMaterial := some mat.name
  , density := some mat.density
  , kg := kg
  , co2 := kg * mat.co2
  , ubp := kg * mat.ubp
  , kwh := kg * mat.kwh }

/-- The body of `validIndices.forEach` on the copied array: read the row
at the index (the `if (!row)` guard skips a missing position) and write
back the updated row. -/
def overrideStep (mat : MaterialOption) (acc : List MaterialRow) (q : ℚ) :
    List MaterialRow :=
  match acc.get? q.num.toNat with
  | some row => acc.set q.num.toNat (applyMaterialUpdate row mat)
  | none => acc

/-- `handleUpdateMaterial`: convert and filter the indices; if none
remain, return unchanged; otherwise update each named row in a copy. -/
def handleUpdateMaterial (indices : List UpdateIndex) (mat : MaterialOption)
    (rows : List MaterialRow) : List MaterialRow :=
  let validIndices := (indices.map (convertIndex rows)).filter (isValidIndex rows.length)
  if validIndices.isEmpty then rows
  else validIndices.foldl (overrideStep mat) rows

/-! ## CSV export (`handleExportCSV` of the results table) -/

def dupQuotes : List Char → List Char
  | [] => []
  | c :: t => if c == '"' then '"' :: '"' :: dupQuotes t else c :: dupQuotes t

/-- `escapeCSV`: quote a value containing a comma, double quote or single
quote, doubling internal double quotes. -/
def escapeCSV (value : String) : String :=
  if strContainsSub value "," || strContainsSub value "\"" || strContainsSub value "'" then
    "\"" ++ String.mk (dupQuotes value.data) ++ "\""
  else value

def padZeros (s : String) (len : Nat) : String :=
  String.mk (List.replicate (len - s.data.length) '0') ++ s

/-- Model of `Number.prototype.toFixed(digits)` on exact rationals:
round `q·10^digits` to the nearest integer and print with `digits`
decimals. -/
def toFixedStr (digits : Nat) (q : ℚ) : String :=
  let n : Int := round (q * (10 ^ digits : ℚ))
  let sign := if n < 0 then "-" else ""
  let a := n.natAbs
  let ip := a / 10 ^ digits
  let fp := a % 10 ^ digits
  if digits = 0 then sign ++ toString ip
  else sign ++ toString ip ++ "." ++ padZeros (toString fp) digits

/-- `row.kg > 0 ? row.co2 / row.kg : 0`. -/
def perKgCO2 (row : MaterialRow) : ℚ := if 0 < row.kg then row.co2 / row.kg else 0

/-- `row.kg > 0 ? row.ubp / row.kg : 0`. -/
def perKgUBP (row : MaterialRow) : ℚ := if 0 < row.kg then row.ubp / row.kg else 0

/-- `row.kg > 0 ? row.kwh / row.kg : 0`. -/
def perKgKWH (row : MaterialRow) : ℚ := if 0 < row.kg then row.kwh / row.kg else 0

/-- `originalDataRow[header] || ""` on the record of original CSV cells. -/
def recLookup (rec : List (String × String)) (h : String) : String :=
  match rec.find? (fun p => p.1 == h) with
  | some p => if p.2 = "" then "" else p.2
  | none => ""

def exportDerivedHeaders : List String :=
  [ "KBOB Material"
  , "CO2 pro kg (kg CO2 eq/kg)"
  , "CO2 Total (kg CO2 eq)"
  , "UBP pro kg (pts/kg)"
  , "UBP Total (pts)"
  , "kWh pro kg (kWh/kg)"
  , "kWh Total (kWh)" ]

def exportHeaderRow (originalHeaders : List String) : String :=
  String.intercalate "," ((originalHeaders ++ exportDerivedHeaders).map escapeCSV)

/-- One data line of the export: the original cells looked up by header
(empty cells when the original record is missing), then the derived
columns with guarded per-kg rates. -/
def exportDataRow (originalHeaders : List String)
    (originalRowData : List (List (String × String)))
    (row : MaterialRow) (index : Nat) : String :=
  let orig :=
    match originalRowData.get? index with
    | some rec => originalHeaders.map (fun h => escapeCSV (recLookup rec h))
    | none => originalHeaders.map (fun _ => "")
  let derived :=
    [ escapeCSV (row.matchedMaterial.getD "")
    , escapeCSV (toFixedStr 3 (perKgCO2 row))
    , escapeCSV (toFixedStr 2 row.co2)
    , escapeCSV (toFixedStr 3 (perKgUBP row))
    , escapeCSV (toFixedStr 2 row.ubp)
    , escapeCSV (toFixedStr 3 (perKgKWH row))
    , escapeCSV (toFixedStr 2 row.kwh) ]
  String.intercalate "," (orig ++ derived)

/-- The lines of `csvContent`: a header line, then one line per member of
`filteredData` (the row loop reads only `filteredData`). -/
def exportCsvLines (filteredData : List MaterialRow) (originalHeaders : List String)
    (originalRowData : List (List (String × String))) : List String :=
  exportHeaderRow originalHeaders ::
    filteredData.enum.map (fun p => exportDataRow originalHeaders originalRowData p.2 p.1)

/-- The download file name, which is the only place the selection is
consulted. -/
def exportFileName (selectedCount : Nat) (dateStr : String) : String :=
  if 0 < selectedCount then
    "lca-results-" ++ toString selectedCount ++ "-selected-" ++ dateStr ++ ".csv"
  else "lca-results-all-" ++ dateStr ++ ".csv"

/-- `handleExportCSV`: the produced CSV lines and file name. -/
def handleExportCSV (selectedRows : List Nat) (filteredData : List MaterialRow)
    (originalHeaders : List String) (originalRowData : List (List (String × String)))
    (dateStr : String) : List String × String :=
  ( exportCsvLines filteredData originalHeaders originalRowData
  , exportFileName selectedRows.length dateStr )

/-! ## Reinforcement derivation (`handleAddReinforcement`) -/

/-- The derived mass-kg row for one qualifying parent:
`reinforcementQuantity = parent volume × kgPerM3`, impacts =
`reinforcementQuantity ×` the co2/ubp/kwh fields of the route's response
for the query `{material: "Armierungsstahl", quantity: kgPerM3, unit: "kg"}`. -/
def reinforcementRow (concreteRow : MaterialRow) (kgPerM3 : ℚ)
    (steel : ProcessedItem) (actualIndex : Nat) : MaterialRow :=
  let reinforcementQuantity := concreteRow.quantity * kgPerM3
  { element := concreteRow.element ++ " - Bewehrung " ++ toString kgPerM3 ++ "kg/m³"
  , material := "Armierungsstahl"
  , quantity := reinforcementQuantity
  , unit := "kg"
  , kg := reinforcementQuantity
  , co2 := reinforcementQuantity * steel.co2
  , ubp := reinforcementQuantity * steel.ubp
  , kwh := reinforcementQuantity * steel.kwh
  , matchedMaterial := steel.matchedMaterial
  , matchScore := some (if steel.matchScore = 0 then 1 else steel.matchScore)
  , availableMaterials := steel.availableMaterials
  , density := some steel.density
  , area := none
  , isReinforcementFor := some actualIndex }

/-- `data.findIndex(...)` on the (element, material, quantity, unit)
quadruple. -/
def findRowIndex (data : List MaterialRow) (r : MaterialRow) : Option Nat :=
  data.findIdx? (fun row =>
    decide (row.element = r.element ∧ row.material = r.material ∧
      row.quantity = r.quantity ∧ row.unit = r.unit))

/-- `handleAddReinforcement`: fetch the steel entry from the route with
`quantity = kgPerM3, unit = "kg"`, validate that the matched name contains
"armierung" (otherwise no mutation), then for each selected row with unit
m3 that is found in the data append one derived row. -/
def handleAddReinforcement (selectedRows data : List MaterialRow) (kgPerM3 : ℚ)
    (catalog : List KBOBMaterial) : List MaterialRow :=
  let steel := processItem catalog
    { element := "Bewehrung", material := "Armierungsstahl"
    , quantity := kgPerM3, unit := "kg" }
  let valid := match steel.matchedMaterial with
    | some n => strContainsSub (strLower n) "armierung"
    | none => false
  if valid then
    let newRows := selectedRows.foldl
      (fun acc concreteRow =>
        if concreteRow.unit = "m3" then
          match findRowIndex data concreteRow with
          | some actualIndex => acc ++ [reinforcementRow concreteRow kgPerM3 steel actualIndex]
          | none => acc
        else acc)
      []
    data ++ newRows
  else data

/-! ## Claim C2 — volume-to-mass conversion -/

def c2item : CleanItem :=
  { element := "Wand", material := "xyz", quantity := 2.5, unit := "m3" }

def c2goodItem : CleanItem :=
  { element := "Wand", material := "Hochbaubeton", quantity := 2.5, unit := "m3" }

def quxEntry : KBOBMaterial :=
  { uuid := "u3", nameDE := "alpha beta gamma delta x", density := some 1
  , ubp21Total := some 1, gwpTotal := some 1
  , primaryEnergyNonRenewableTotal := some 1 }

def c4item : CleanItem :=
  { element := "Dach", material := "zzz unrelated", quantity := 7, unit := "kg" }

/-! ## Claim C7 — ingest defaulting vs rejection -/

def goodRec : RawRecord :=
  { element := some "Wand", material := some "Beton", quantity := some 1, unit := some "m3" }

/-- The defaulting rules in the spec's words: missing element/material get
a synthetic placeholder label, missing/invalid quantity defaults to 0,
missing unit to kg. -/
def specCleanItem (index : Nat) (r : RawRecord) : CleanItem :=
  { element := orDefault r.element ("Unknown Element " ++ toString (index + 1))
  , material := orDefault r.material ("Unknown Material " ++ toString (index + 1))
  , quantity := r.quantity.getD 0
  , unit := orDefault r.unit "kg" }

def specCleanBatch : Nat → List RawRecord → List CleanItem
  | _, [] => []
  | n, r :: rs => specCleanItem n r :: specCleanBatch (n + 1) rs

def c9row : MaterialRow :=
  { element := "E", material := "M", quantity := 0, unit := "kg"
  , kg := 0, co2 := 5, ubp := 7, kwh := 9
  , matchedMaterial := none, matchScore := none, availableMaterials := []
  , density := none, area := none, isReinforcementFor := none }

/-! ## Claim C8 — export rows vs selection -/

def c8row1 : MaterialRow :=
  { element := "Wand", material := "Beton", quantity := 1, unit := "m3"
  , kg := 2400, co2 := 600, ubp := 100, kwh := 50
  , matchedMaterial := some "Hochbaubeton", matchScore := some 1
  , availableMaterials := [], density := some 2400, area := none
  , isReinforcementFor := none }

def c8row2 : MaterialRow :=
  { element := "Decke", material := "Holz", quantity := 2, unit := "m3"
  , kg := 1000, co2 := 200, ubp := 80, kwh := 40
  , matchedMaterial := some "Brettschichtholz", matchScore := some 1
  , availableMaterials := [], density := some 500, area := none
  , isReinforcementFor := none }

def c8headers : List String := ["Element", "Material"]

def c8orig : List (List (String × String)) :=
  [ [("Element", "Wand"), ("Material", "Beton")]
  , [("Element", "Decke"), ("Material", "Holz")] ]

/-! ## Claim C1 — reinforcement derivation impacts -/

def steelEntry : KBOBMaterial :=
  { uuid := "s1", nameDE := "Armierungsstahl", density := some 7850
  , ubp21Total := some 2, gwpTotal := some 1
  , primaryEnergyNonRenewableTotal := some 3 }

def c1parent : MaterialRow :=
  { element := "Wand", material := "Beton", quantity := 10, unit := "m3"
  , kg := 24000, co2 := 6000, ubp := 0, kwh := 0
  , matchedMaterial := some "Hochbaubeton", matchScore := some 1
  , availableMaterials := [], density := some 2400, area := none
  , isReinforcementFor := none }

def c10mat : MaterialOption :=
  { id := "u9", name := "Backstein", density := 1800, co2 := 0.2, ubp := 300, kwh := 0.9 }

def c10rowA : MaterialRow :=
  { element := "Wand", material := "Ziegel", quantity := 3, unit := "m3"
  , kg := 0, co2 := 0, ubp := 0, kwh := 0
  , matchedMaterial := none, matchScore := some 0.3, availableMaterials := []
  , density := none, area := none, isReinforcementFor := none }

def c10rowB : MaterialRow :=
  { element := "Decke", material := "Holz", quantity := 4, unit := "kg"
  , kg := 4, co2 := 1, ubp := 2, kwh := 3
  , matchedMaterial := some "Brettschichtholz", matchScore := some 1
  , availableMaterials := [], density := some 500, area := none
  , isReinforcementFor := none }

/-! ## Claim C5 — group aggregates are exact sums of member rows -/

/-- Repeated application of the `+=` block. -/
def addRows (g : RowGroup) (l : List MaterialRow) : RowGroup :=
  l.foldl addRowToGroup g

def findGroup (k : String) : List RowGroup → Option RowGroup
  | [] => none
  | g :: gs => if groupKey g = k then some g else findGroup k gs

def groupKeys (l : List RowGroup) : List String := l.map groupKey

def c5w1 : MaterialRow :=
  { element := "Wand", material := "Beton", quantity := 1, unit := "m3"
  , kg := 10, co2 := 2, ubp := 3, kwh := 4
  , matchedMaterial := none, matchScore := none, availableMaterials := []
  , density := none, area := none, isReinforcementFor := none }

def c5w2 : MaterialRow :=
  { element := "Decke", material := "Holz", quantity := 2, unit := "m3"
  , kg := 20, co2 := 5, ubp := 6, kwh := 7
  , matchedMaterial := none, matchScore := none, availableMaterials := []
  , density := none, area := none, isReinforcementFor := none }

def c5w3 : MaterialRow :=
  { element := "Wand", material := "Beton", quantity := 3, unit := "m3"
  , kg := 30, co2 := 8, ubp := 9, kwh := 10
  , matchedMaterial := none, matchScore := none, availableMaterials := []
  , density := none, area := none, isReinforcementFor := none }

/-! ## Theorems -/

example : entryScore "beton foo" betonEntry = 0.9 := by
  simp +decide [entryScore, categoryScore, applyMapping, materialMappings]
  try norm_num [max_def]

example : mappingScore "beton foo" fooEntry = 0 := by
  simp +decide [mappingScore, categoryScore, applyMapping, materialMappings]
  try norm_num [max_def]

example : entryScore "beton foo" fooEntry = 0.3 := by
  simp +decide [entryScore, categoryScore, applyMapping, materialMappings,
    fallbackScore, splitWords, wordsAux]
  try norm_num [max_def]

example : findBestMaterialMatch "Beton foo" [betonEntry, fooEntry] =
    (some betonEntry, 0.9) := by
  simp +decide [findBestMaterialMatch, strTrim, trimChars, strLower,
    entryScore, categoryScore, applyMapping, materialMappings,
    fallbackScore, splitWords, wordsAux]
  try norm_num [max_def]

/-! ### sanity checks -/

example :
    (processItem [betonEntry]
      { element := "Wand", material := "Hochbaubeton", quantity := 2.5, unit := "m3" }).kg
      = 6000 := by
  simp +decide [processItem, findBestMaterialMatch, strTrim, trimChars, strLower,
    entryScore, categoryScore, applyMapping, materialMappings, fallbackScore,
    splitWords, wordsAux, densityNum, betonEntry]
  try norm_num [max_def]

example :
    (processItem []
      { element := "Wand", material := "xyz", quantity := 2.5, unit := "m3" }).kg
      = 2.5 := by
  simp +decide [processItem, findBestMaterialMatch, strTrim, trimChars, strLower]

/-- C2 counterexample: for a volume row that matches no catalog entry the
route computes `kg = quantity` (the ternary falls through to the mass
branch), not `quantity × 0 = 0` as the claim states. -/
theorem C2_counterexample :
    (processItem [] c2item).kg = 2.5 ∧ ((2.5 : ℚ) ≠ 2.5 * 0) := by
  constructor
  · simp +decide [processItem, findBestMaterialMatch, c2item]
  · norm_num

/-- C2 (amended): for unit volume-m³, `mass_kg = quantity × (density ?? 0)`
of the matched entry when one matched; when no entry matched the row falls
through to `mass_kg = quantity`. -/
theorem C2_volume_mass (catalog : List KBOBMaterial) (item : CleanItem)
    (m : KBOBMaterial) (hu : item.unit = "m3") :
    ((findBestMaterialMatch (strLower item.material) catalog).1 = some m →
      (processItem catalog item).kg = item.quantity * densityNum m) ∧
    ((findBestMaterialMatch (strLower item.material) catalog).1 = none →
      (processItem catalog item).kg = item.quantity) := by
  constructor <;> intro h <;> simp [processItem, h, hu]

/-- C2 witness: quantity 2.5 m³ at density 2400 gives exactly 6000 kg. -/
theorem C2_witness : (processItem [betonEntry] c2goodItem).kg = 6000 := by
  have hm : (findBestMaterialMatch (strLower c2goodItem.material) [betonEntry]).1
      = some betonEntry := by
    simp +decide [findBestMaterialMatch, strTrim, trimChars, strLower, entryScore,
      categoryScore, applyMapping, materialMappings, betonEntry, c2goodItem]
  have h := (C2_volume_mass [betonEntry] c2goodItem betonEntry rfl).1 hm
  rw [h]
  norm_num [densityNum, betonEntry, c2goodItem]

/-! ## Claim C3 — fallback scoring is per entry, not global -/

/-- C3 counterexample: with the label "beton foo", `betonEntry` scores 0.9
from the category step, yet `fooEntry`'s final score is still produced by
the fallback (0.3 ≠ 0) — the fallback is not disabled by another entry
scoring above 0. -/
theorem C3_counterexample :
    0 < mappingScore "beton foo" betonEntry ∧
    mappingScore "beton foo" fooEntry = 0 ∧
    entryScore "beton foo" fooEntry
      = fallbackScore "beton foo" (strLower fooEntry.nameDE) ∧
    fallbackScore "beton foo" (strLower fooEntry.nameDE) = 0.3 ∧
    ((0.3 : ℚ) ≠ 0) := by
  refine ⟨?_, ?_, ?_, ?_, by norm_num⟩
  · simp +decide [mappingScore, categoryScore, applyMapping, materialMappings, betonEntry]
    try norm_num [max_def]
  · simp +decide [mappingScore, categoryScore, applyMapping, materialMappings, fooEntry]
  · simp +decide [entryScore, mappingScore, categoryScore, applyMapping,
      materialMappings, fooEntry]
  · simp +decide [fallbackScore, splitWords, wordsAux, strLower, fooEntry]
    try norm_num

/-- C3 (amended): the fallback applies per catalog entry — an entry's
final score is the word-overlap sum exactly when that entry itself scored
0 from the exact-match and category steps, independent of other entries;
the sum is uncapped. -/
theorem C3_fallback_per_entry (s : String) (m : KBOBMaterial) :
    (mappingScore s m = 0 → entryScore s m = fallbackScore s (strLower m.nameDE)) ∧
    (mappingScore s m ≠ 0 → entryScore s m = mappingScore s m) := by
  by_cases he : strLower m.nameDE = s
  · refine ⟨fun h => ?_, fun h => ?_⟩
    · exfalso
      simp [mappingScore, he] at h
    · simp [entryScore, mappingScore, he]
  · refine ⟨fun h => ?_, fun h => ?_⟩
    · simp [mappingScore, he] at h
      simp [entryScore, he, h]
    · simp [mappingScore, he] at h
      simp [entryScore, mappingScore, he, h]

/-- C3 witness: the per-entry fallback equation at a concrete input, and
an uncapped fallback score exceeding 1.0 (four word overlaps, 1.2). -/
theorem C3_witness :
    entryScore "beton foo" fooEntry
      = fallbackScore "beton foo" (strLower fooEntry.nameDE) ∧
    1 < entryScore "alpha beta gamma delta" quxEntry := by
  constructor
  · exact (C3_fallback_per_entry "beton foo" fooEntry).1 (by
      simp +decide [mappingScore, categoryScore, applyMapping, materialMappings, fooEntry])
  · simp +decide [entryScore, categoryScore, applyMapping, materialMappings,
      fallbackScore, splitWords, wordsAux, strLower, quxEntry]
    try norm_num

/-! ## Claim C4 — impacts populated only on a confident match -/

/-- C4: below score 0.8 (or with no matched entry) all three impact fields
are 0 and the matched name is null, while `availableMaterials` is always
the category-filtered candidate list; impacts can be non-zero only at
score ≥ 0.8. -/
theorem C4_confident_match_gate (catalog : List KBOBMaterial) (item : CleanItem) :
    ((processItem catalog item).matchScore < 0.8 →
      (processItem catalog item).co2 = 0 ∧ (processItem catalog item).ubp = 0 ∧
      (processItem catalog item).kwh = 0 ∧
      (processItem catalog item).matchedMaterial = none) ∧
    ((findBestMaterialMatch (strLower item.material) catalog).1 = none →
      (processItem catalog item).co2 = 0 ∧ (processItem catalog item).ubp = 0 ∧
      (processItem catalog item).kwh = 0 ∧
      (processItem catalog item).matchedMaterial = none) ∧
    ((processItem catalog item).availableMaterials =
      (catalog.filter (relevantFilter (strLower item.material))).map matToOption) ∧
    (((processItem catalog item).co2 ≠ 0 ∨ (processItem catalog item).ubp ≠ 0 ∨
        (processItem catalog item).kwh ≠ 0) →
      (0.8 : ℚ) ≤ (processItem catalog item).matchScore) := by
  rcases hm : (findBestMaterialMatch (strLower item.material) catalog).1 with _ | m
  · simp [processItem, hm]
  · by_cases hg : (0.8 : ℚ) ≤ (findBestMaterialMatch (strLower item.material) catalog).2
    · refine ⟨?_, ?_, ?_, ?_⟩
      · intro hlt
        simp [processItem] at hlt
        exact absurd hg (not_le.mpr hlt)
      · intro h
        simp [hm] at h
      · simp [processItem]
      · intro _
        simp [processItem, hg]
    · simp [processItem, hm, hg]

/-- C4 witness: a label matching nothing (score 0 < 0.8) yields zero
impacts and a null matched name. -/
theorem C4_witness :
    (processItem [fooEntry] c4item).co2 = 0 ∧ (processItem [fooEntry] c4item).ubp = 0 ∧
    (processItem [fooEntry] c4item).kwh = 0 ∧
    (processItem [fooEntry] c4item).matchedMaterial = none := by
  exact (C4_confident_match_gate [fooEntry] c4item).1 (by
    simp +decide [processItem, findBestMaterialMatch, strTrim, trimChars, strLower,
      entryScore, categoryScore, applyMapping, materialMappings, fallbackScore,
      splitWords, wordsAux, fooEntry, c4item]
    try norm_num)

/-- C7 counterexample: a batch containing one non-object item is rejected
as a whole (`throw` inside `data.map`), so ingestion does abort because of
one bad row. -/
theorem C7_counterexample :
    cleanAll 0 [some goodRec, none]
      = .error "Invalid item at index 1: must be an object" := by
  simp only [cleanAll, cleanOne, Except.map]
  congr 1
  try decide

/-- C7 (amended): a batch whose items are all objects is never rejected —
every item is defaulted field by field; only a non-object item aborts the
whole request. -/
theorem C7_object_items_defaulted (n : Nat) (items : List RawRecord) :
    cleanAll n (items.map some) = .ok (specCleanBatch n items) := by
  induction items generalizing n with
  | nil => simp [cleanAll, specCleanBatch]
  | cons r rs ih => simp [cleanAll, cleanOne, specCleanBatch, specCleanItem, ih, Except.map]

/-! ## Claim C9 — guarded per-kg division in the export -/

/-- C9: the per-kg rate columns are guarded — a non-positive mass yields
rate 0, and division only ever happens against a strictly positive mass
(so the rates are always well-defined finite numbers). -/
theorem C9_perkg_guard (row : MaterialRow) :
    (¬ 0 < row.kg → perKgCO2 row = 0 ∧ perKgUBP row = 0 ∧ perKgKWH row = 0) ∧
    (0 < row.kg → perKgCO2 row * row.kg = row.co2 ∧
      perKgUBP row * row.kg = row.ubp ∧ perKgKWH row * row.kg = row.kwh) := by
  refine ⟨fun h => by simp [perKgCO2, perKgUBP, perKgKWH, h], fun h => ?_⟩
  have hne : row.kg ≠ 0 := ne_of_gt h
  simp [perKgCO2, perKgUBP, perKgKWH, h]
  exact ⟨div_mul_cancel₀ _ hne, div_mul_cancel₀ _ hne, div_mul_cancel₀ _ hne⟩

/-- C9 witness: a row with zero mass but non-zero stored impacts exports
per-kg rates of exactly 0. -/
theorem C9_witness :
    perKgCO2 c9row = 0 ∧ perKgUBP c9row = 0 ∧ perKgKWH c9row = 0 :=
  (C9_perkg_guard c9row).1 (by norm_num [c9row])

/-- C8 failing input: with 1 of 2 rows selected, the export still emits a
line for every filtered row (3 lines = header + 2 rows, not header + the
1 selected row), identically to an empty selection; only the file name
reports the selection. -/
theorem C8_export_ignores_selection :
    ((handleExportCSV [0] [c8row1, c8row2] c8headers c8orig "2026-10-12").1).length = 3 ∧
    ((handleExportCSV [0] [c8row1, c8row2] c8headers c8orig "2026-10-12").1).length ≠ 2 ∧
    (handleExportCSV [0] [c8row1, c8row2] c8headers c8orig "2026-10-12").1
      = (handleExportCSV [] [c8row1, c8row2] c8headers c8orig "2026-10-12").1 ∧
    (handleExportCSV [0] [c8row1, c8row2] c8headers c8orig "2026-10-12").2
      = "lca-results-1-selected-2026-10-12.csv" := by
  have h3 : ((handleExportCSV [0] [c8row1, c8row2] c8headers c8orig
      "2026-10-12").1).length = 3 := by
    simp [handleExportCSV, exportCsvLines, List.length_map, List.enum_length]
  refine ⟨h3, by rw [h3]; omega, rfl, ?_⟩
  simp +decide [handleExportCSV, exportFileName]

/-- C1 failing input: parent of 10 m³ with kgPerM3 = 100 against a steel
entry whose GWP is 1 per kg. The derived row's mass is 1000 kg as claimed,
but its CO2 is 100000, not 1000 × 1: the route's response was queried with
`quantity = kgPerM3`, so its `co2` field is already `kgPerM3 ×` the per-kg
coefficient, and the handler multiplies by `kgPerM3` again. -/
theorem C1_reinforcement_code_bug :
    ((handleAddReinforcement [c1parent] [c1parent] 100 [steelEntry]).map
        (fun r => (r.kg, r.co2, r.isReinforcementFor)))
      = [(24000, 6000, none), (1000, 100000, some 0)] ∧
    ((100000 : ℚ) ≠ 1000 * 1) := by
  constructor
  · simp +decide [handleAddReinforcement, processItem, findBestMaterialMatch, strTrim,
      trimChars, strLower, entryScore, categoryScore, applyMapping, materialMappings,
      fallbackScore, splitWords, wordsAux, reinforcementRow, findRowIndex,
      relevantFilter, matToOption, densityNum, steelEntry, c1parent]
    try norm_num [max_def]
    try decide
  · norm_num

/-! ## Claim C10 — manual override discards invalid indices -/

lemma overrideStep_get_ne (mat : MaterialOption) (acc : List MaterialRow) (q : ℚ)
    (j : Nat) (h : q.num.toNat ≠ j) :
    (overrideStep mat acc q).get? j = acc.get? j := by
  unfold overrideStep
  cases hr : acc.get? q.num.toNat with
  | none => rfl
  | some row => exact List.get?_set_ne _ acc h

lemma foldl_overrideStep_get_ne (mat : MaterialOption) :
    ∀ (l : List ℚ) (acc : List MaterialRow) (j : Nat),
      (∀ q ∈ l, q.num.toNat ≠ j) →
      (l.foldl (overrideStep mat) acc).get? j = acc.get? j := by
  intro l
  induction l with
  | nil => intro acc j _; rfl
  | cons q rest ih =>
    intro acc j h
    rw [List.foldl_cons, ih _ j (fun r hr => h r (List.mem_cons_of_mem q hr)),
      overrideStep_get_ne mat acc q j (h q (List.mem_cons_self q rest))]

lemma valid_index_eq_cast {len : Nat} {q : ℚ} (hval : isValidIndex len q = true)
    {j : Nat} (hj : q.num.toNat = j) : q = (j : ℚ) := by
  have h := of_decide_eq_true hval
  obtain ⟨hden, hpos, _⟩ := h
  have hq : q = (q.num : ℚ) := by
    conv_lhs => rw [← Rat.num_div_den q]
    rw [hden]
    simp
  have hnum : 0 ≤ q.num := Rat.num_nonneg.mpr hpos
  rw [hq, ← Int.toNat_of_nonneg hnum, hj]
  norm_num

/-- C10: the manual override silently discards every supplied index that
is not an integer inside `[0, rows.length)` (after converting row objects
to indices); with no valid index left the collection is unchanged, and a
row whose index is not among the valid indices is never modified. -/
theorem C10_override_discards_invalid (indices : List UpdateIndex)
    (mat : MaterialOption) (rows : List MaterialRow) :
    (((indices.map (convertIndex rows)).filter (isValidIndex rows.length)) = [] →
      handleUpdateMaterial indices mat rows = rows) ∧
    (∀ j : Nat, j < rows.length →
      ((j : ℚ) ∉ (indices.map (convertIndex rows)).filter (isValidIndex rows.length)) →
      (handleUpdateMaterial indices mat rows).get? j = rows.get? j) := by
  constructor
  · intro h
    simp [handleUpdateMaterial, h]
  · intro j _ hnotin
    by_cases he :
        ((indices.map (convertIndex rows)).filter (isValidIndex rows.length)).isEmpty
    · simp [handleUpdateMaterial, he]
    · simp only [handleUpdateMaterial, he, if_false]
      refine foldl_overrideStep_get_ne mat _ rows j (fun q hq hj => ?_)
      have hval := List.of_mem_filter hq
      exact hnotin (valid_index_eq_cast hval hj ▸ hq)

/-- C10 witness: out-of-range, negative and unresolvable-object indices
are all discarded leaving the rows untouched, and an update of row 0
leaves row 1 unchanged. -/
theorem C10_witness :
    handleUpdateMaterial [.num 5, .num (-1), .obj "X" "Y" 0 "kg"] c10mat
      [c10rowA, c10rowB] = [c10rowA, c10rowB] ∧
    (handleUpdateMaterial [.num 0] c10mat [c10rowA, c10rowB]).get? 1
      = ([c10rowA, c10rowB].get? 1) := by
  constructor
  · exact (C10_override_discards_invalid [.num 5, .num (-1), .obj "X" "Y" 0 "kg"]
      c10mat [c10rowA, c10rowB]).1 (by decide)
  · exact (C10_override_discards_invalid [.num 0] c10mat [c10rowA, c10rowB]).2 1
      (by decide) (by decide)

/-! ## Claim C6 — deletion removes exactly the named rows, in lockstep -/

lemma keepNotIn_of_all_lt {α : Type} :
    ∀ (as : List α) (n : Nat) (is : List Int),
      (∀ j ∈ is, j < (n : Int)) → keepNotIn is n as = as := by
  intro as
  induction as with
  | nil => intro n is _; rfl
  | cons a t ih =>
    intro n is h
    have hn : ((n : Int) ∈ is) = False := by
      simp only [eq_iff_iff, iff_false]
      intro hmem
      exact absurd (h _ hmem) (lt_irrefl _)
    simp only [keepNotIn, hn, if_false]
    rw [ih (n + 1) is (fun j hj => lt_trans (h j hj) (by exact_mod_cast Nat.lt_succ_self n))]

lemma spliceOne_cons_succ {α : Type} (a : α) (as : List α) (k : Nat) :
    spliceOne (a :: as) (k + 1) = a :: spliceOne as k := by
  simp [spliceOne]

lemma keepNotIn_spliceOne {α : Type} :
    ∀ (xs : List α) (n k : Nat) (is : List Int),
      k < xs.length → (∀ j ∈ is, j < (n : Int) + (k : Int)) →
      keepNotIn is n (spliceOne xs k) = keepNotIn (((n + k : Nat) : Int) :: is) n xs := by
  intro xs
  induction xs with
  | nil => intro n k is hk _; exact absurd hk (Nat.not_lt_zero k)
  | cons a as ih =>
    intro n k is hk hlt
    cases k with
    | zero =>
      have h0 : spliceOne (a :: as) 0 = as := by simp [spliceOne]
      rw [h0]
      have hmem : (((n + 0 : Nat) : Int) ∈ (((n + 0 : Nat) : Int) :: is)) = True := by
        simp
      simp only [keepNotIn, Nat.add_zero, List.mem_cons, true_or, if_true, hmem]
      rw [keepNotIn_of_all_lt as n is (fun j hj => by
          have := hlt j hj
          simpa using this),
        keepNotIn_of_all_lt as (n + 1) _ (fun j hj => by
          rcases List.mem_cons.mp hj with h | h
          · subst h; exact_mod_cast Nat.lt_succ_self n
          · have := hlt j h
            have h2 : (j : Int) < (n : Int) := by simpa using this
            exact lt_trans h2 (by exact_mod_cast Nat.lt_succ_self n))]
    | succ k' =>
      rw [spliceOne_cons_succ]
      have hcond : ((n : Int) ∈ (((n + (k' + 1) : Nat) : Int) :: is)) ↔ ((n : Int) ∈ is) := by
        constructor
        · intro h
          rcases List.mem_cons.mp h with h | h
          · exfalso
            have : (n : Int) ≠ ((n + (k' + 1) : Nat) : Int) := by
              push_cast
              omega
            exact this h
          · exact h
        · exact fun h => List.mem_cons_of_mem _ h
      have hrec : keepNotIn is (n + 1) (spliceOne as k')
          = keepNotIn (((n + (k' + 1) : Nat) : Int) :: is) (n + 1) as := by
        have := ih (n + 1) k' is (Nat.lt_of_succ_lt_succ hk)
          (fun j hj => by
            have := hlt j hj
            push_cast at this ⊢
            omega)
        rw [this]
        congr 2
        omega
      by_cases hn : (n : Int) ∈ is
      · simp only [keepNotIn, hn, if_true, hcond.mpr hn |> eq_true, if_pos (hcond.mpr hn)]
        exact hrec
      · have hn' : ¬ ((n : Int) ∈ (((n + (k' + 1) : Nat) : Int) :: is)) := fun h =>
          hn (hcond.mp h)
        simp only [keepNotIn, hn, hn', if_false]
        rw [hrec]

lemma foldl_splice_eq_keepNotIn {α : Type} :
    ∀ (is : List Int) (xs : List α),
      is.Pairwise (· > ·) → (∀ i ∈ is, 0 ≤ i ∧ i < (xs.length : Int)) →
      is.foldl
        (fun acc i => if 0 ≤ i ∧ i < (acc.length : Int) then spliceOne acc i.toNat else acc)
        xs = keepNotIn is 0 xs := by
  intro is
  induction is with
  | nil =>
    intro xs _ _
    rw [List.foldl_nil, keepNotIn_of_all_lt xs 0 [] (by simp)]
  | cons i rest ih =>
    intro xs hpw hv
    have hi := hv i (List.mem_cons_self i rest)
    have hlen : 0 < xs.length := by
      rcases hi with ⟨h0, hlt⟩
      omega
    have hcond : (0 ≤ i ∧ i < (xs.length : Int)) := hi
    rw [List.foldl_cons, if_pos hcond]
    have hitn : i.toNat < xs.length := by
      rcases hi with ⟨h0, hlt⟩
      omega
    have hlen' : (spliceOne xs i.toNat).length = xs.length - 1 := by
      simp [spliceOne]
      omega
    have hrest : ∀ j ∈ rest, 0 ≤ j ∧ j < ((spliceOne xs i.toNat).length : Int) := by
      intro j hj
      have hji : i > j := (List.pairwise_cons.mp hpw).1 j hj
      have hjv := hv j (List.mem_cons_of_mem i hj)
      rw [hlen']
      rcases hjv with ⟨h0, _⟩
      constructor
      · exact h0
      · rcases hi with ⟨hi0, hilt⟩
        omega
    rw [ih (spliceOne xs i.toNat) (List.pairwise_cons.mp hpw).2 hrest]
    have := keepNotIn_spliceOne xs 0 i.toNat rest hitn
      (fun j hj => by
        have hji : i > j := (List.pairwise_cons.mp hpw).1 j hj
        rcases hi with ⟨hi0, _⟩
        push_cast
        omega)
    rw [this]
    congr 1
    rcases hi with ⟨hi0, _⟩
    simp
    omega

lemma insertDesc_perm (i : Int) : ∀ l : List Int, (insertDesc i l).Perm (i :: l) := by
  intro l
  induction l with
  | nil => exact List.Perm.refl _
  | cons j js ih =>
    by_cases h : j ≤ i
    · simp [insertDesc, h]
    · simp only [insertDesc, h, if_false]
      exact (ih.cons j).trans (List.Perm.swap i j js)

lemma sortDesc_perm : ∀ l : List Int, (sortDesc l).Perm l := by
  intro l
  induction l with
  | nil => exact List.Perm.refl _
  | cons x xs ih =>
    have h1 : sortDesc (x :: xs) = insertDesc x (sortDesc xs) := rfl
    rw [h1]
    exact (insertDesc_perm x (sortDesc xs)).trans (ih.cons x)

lemma insertDesc_sorted (i : Int) :
    ∀ l : List Int, l.Pairwise (· ≥ ·) → (insertDesc i l).Pairwise (· ≥ ·) := by
  intro l
  induction l with
  | nil => intro _; simp [insertDesc]
  | cons j js ih =>
    intro h
    rcases List.pairwise_cons.mp h with ⟨hj, hjs⟩
    by_cases hle : j ≤ i
    · simp only [insertDesc, hle, if_true]
      refine List.pairwise_cons.mpr ⟨?_, h⟩
      intro b hb
      rcases List.mem_cons.mp hb with rfl | hb
      · exact hle
      · exact le_trans (hj b hb) hle
    · simp only [insertDesc, hle, if_false]
      refine List.pairwise_cons.mpr ⟨?_, ih hjs⟩
      intro b hb
      have hb' := (insertDesc_perm i js).mem_iff.mp hb
      rcases List.mem_cons.mp hb' with rfl | hb'
      · exact le_of_lt (lt_of_not_ge hle)
      · exact hj b hb'

lemma sortDesc_sorted : ∀ l : List Int, (sortDesc l).Pairwise (· ≥ ·) := by
  intro l
  induction l with
  | nil => simp [sortDesc]
  | cons x xs ih => exact insertDesc_sorted x (sortDesc xs) ih

lemma keepNotIn_congr {α : Type} :
    ∀ (xs : List α) (n : Nat) (is₁ is₂ : List Int),
      (∀ x : Int, x ∈ is₁ ↔ x ∈ is₂) →
      keepNotIn is₁ n xs = keepNotIn is₂ n xs := by
  intro xs
  induction xs with
  | nil => intro n _ _ _; rfl
  | cons a as ih =>
    intro n is₁ is₂ h
    simp only [keepNotIn]
    by_cases hn : (n : Int) ∈ is₁
    · rw [if_pos hn, if_pos ((h _).mp hn), ih (n + 1) is₁ is₂ h]
    · rw [if_neg hn, if_neg (fun hx => hn ((h _).mpr hx)), ih (n + 1) is₁ is₂ h]

/-- C6: with distinct in-range indices, `handleDeleteRows` keeps exactly
the rows whose original position is not named, in their original relative
order, and does so identically on the working collection and the parallel
original-input store. -/
theorem C6_delete_lockstep {α β : Type} (indices : List Int) (xs : List α)
    (ys : List β) (hnd : indices.Nodup)
    (hv : ∀ i ∈ indices, 0 ≤ i ∧ i < (xs.length : Int))
    (hlen : ys.length = xs.length) :
    handleDeleteRows indices xs = keepNotIn indices 0 xs ∧
    handleDeleteRows indices ys = keepNotIn indices 0 ys := by
  have hperm := sortDesc_perm indices
  have hmem : ∀ x : Int, x ∈ sortDesc indices ↔ x ∈ indices := fun x => hperm.mem_iff
  have hnd' : (sortDesc indices).Nodup := hperm.nodup_iff.mpr hnd
  have hsorted : (sortDesc indices).Pairwise (· > ·) := by
    have h1 := (sortDesc_sorted indices).and hnd'
    exact h1.imp (fun h => lt_of_le_of_ne h.1 h.2.symm)
  constructor
  · have h1 := foldl_splice_eq_keepNotIn (sortDesc indices) xs hsorted
      (fun i hi => hv i ((hmem i).mp hi))
    unfold handleDeleteRows
    rw [h1]
    exact keepNotIn_congr xs 0 _ _ hmem
  · have hvy : ∀ i ∈ sortDesc indices, 0 ≤ i ∧ i < (ys.length : Int) := by
      intro i hi
      rw [hlen]
      exact_mod_cast hv i ((hmem i).mp hi)
    have h1 := foldl_splice_eq_keepNotIn (sortDesc indices) ys hsorted hvy
    unfold handleDeleteRows
    rw [h1]
    exact keepNotIn_congr ys 0 _ _ hmem

/-- C6 witness: deleting indices {2,4} from five rows leaves rows
{0,1,3} in original order, identically in the working collection and the
parallel original-input store. -/
theorem C6_witness :
    handleDeleteRows [2, 4] ["r0", "r1", "r2", "r3", "r4"] = ["r0", "r1", "r3"] ∧
    handleDeleteRows [2, 4] ["o0", "o1", "o2", "o3", "o4"] = ["o0", "o1", "o3"] := by
  have h := C6_delete_lockstep [2, 4] ["r0", "r1", "r2", "r3", "r4"]
    ["o0", "o1", "o2", "o3", "o4"] (by decide) (by decide) (by decide)
  exact ⟨h.1.trans (by decide), h.2.trans (by decide)⟩

lemma groupKey_addRowToGroup (g : RowGroup) (r : MaterialRow) :
    groupKey (addRowToGroup g r) = groupKey g := rfl

lemma groupKey_emptyGroup (r : MaterialRow) :
    groupKey (emptyGroup r) = rowKey r := rfl

lemma addRows_nil (g : RowGroup) : addRows g [] = g := rfl

lemma addRows_cons (g : RowGroup) (r : MaterialRow) (l : List MaterialRow) :
    addRows g (r :: l) = addRows (addRowToGroup g r) l := rfl

lemma findGroup_insertGroupRow (k : String) (r : MaterialRow) :
    ∀ acc : List RowGroup,
      findGroup k (insertGroupRow acc r)
        = if rowKey r = k
          then some (addRowToGroup ((findGroup k acc).getD (emptyGroup r)) r)
          else findGroup k acc := by
  intro acc
  induction acc with
  | nil =>
    by_cases h : rowKey r = k <;>
      simp [insertGroupRow, findGroup, groupKey_addRowToGroup, groupKey_emptyGroup, h]
  | cons g gs ih =>
    by_cases hg : groupKey g = rowKey r
    · simp only [insertGroupRow, hg, if_true, findGroup, groupKey_addRowToGroup]
      by_cases hk : rowKey r = k <;> simp [hk]
    · simp only [insertGroupRow, hg, if_false, findGroup]
      by_cases hgk : groupKey g = k
      · have hk : ¬ rowKey r = k := fun h => hg (hgk.trans h.symm)
        simp [hgk, hk]
      · simp only [hgk, if_false, ih]

lemma findGroup_foldl (k : String) :
    ∀ (rows : List MaterialRow) (acc : List RowGroup),
      findGroup k (rows.foldl insertGroupRow acc)
        = match findGroup k acc with
          | some g => some (addRows g (rows.filter (fun r => rowKey r = k)))
          | none =>
            match rows.filter (fun r => rowKey r = k) with
            | [] => none
            | r :: rs => some (addRows (addRowToGroup (emptyGroup r) r) rs) := by
  intro rows
  induction rows with
  | nil =>
    intro acc
    cases h : findGroup k acc <;> simp [h, addRows_nil]
  | cons r rs ih =>
    intro acc
    rw [List.foldl_cons, ih (insertGroupRow acc r), findGroup_insertGroupRow]
    by_cases hk : rowKey r = k
    · rw [if_pos hk]
      cases h : findGroup k acc with
      | none => simp [h, List.filter_cons, hk, addRows_cons]
      | some g => simp [h, List.filter_cons, hk, addRows_cons]
    · rw [if_neg hk]
      cases h : findGroup k acc with
      | none => simp [h, List.filter_cons, hk]
      | some g => simp [h, List.filter_cons, hk]

lemma groupKeys_cons (g : RowGroup) (gs : List RowGroup) :
    groupKeys (g :: gs) = groupKey g :: groupKeys gs := rfl

lemma mem_groupKeys_insertGroupRow :
    ∀ (acc : List RowGroup) (r : MaterialRow) (x : String),
      x ∈ groupKeys (insertGroupRow acc r) → x ∈ groupKeys acc ∨ x = rowKey r := by
  intro acc
  induction acc with
  | nil =>
    intro r x hx
    rw [show insertGroupRow [] r = [addRowToGroup (emptyGroup r) r] from rfl,
      groupKeys_cons] at hx
    rcases List.mem_cons.mp hx with h | h
    · exact Or.inr (by rw [h, groupKey_addRowToGroup, groupKey_emptyGroup])
    · exact absurd h (List.not_mem_nil x)
  | cons g gs ih =>
    intro r x hx
    by_cases hg : groupKey g = rowKey r
    · rw [show insertGroupRow (g :: gs) r = addRowToGroup g r :: gs from by
          simp [insertGroupRow, hg],
        groupKeys_cons, groupKey_addRowToGroup] at hx
      rcases List.mem_cons.mp hx with h | h
      · exact Or.inl (by rw [groupKeys_cons, h]; exact List.mem_cons_self _ _)
      · exact Or.inl (by rw [groupKeys_cons]; exact List.mem_cons_of_mem _ h)
    · rw [show insertGroupRow (g :: gs) r = g :: insertGroupRow gs r from by
          simp [insertGroupRow, hg],
        groupKeys_cons] at hx
      rcases List.mem_cons.mp hx with h | h
      · exact Or.inl (by rw [groupKeys_cons, h]; exact List.mem_cons_self _ _)
      · rcases ih r x h with h2 | h2
        · exact Or.inl (by rw [groupKeys_cons]; exact List.mem_cons_of_mem _ h2)
        · exact Or.inr h2

lemma nodup_groupKeys_insertGroupRow :
    ∀ (acc : List RowGroup) (r : MaterialRow),
      (groupKeys acc).Nodup → (groupKeys (insertGroupRow acc r)).Nodup := by
  intro acc
  induction acc with
  | nil =>
    intro r _
    rw [show insertGroupRow [] r = [addRowToGroup (emptyGroup r) r] from rfl]
    simp [groupKeys]
  | cons g gs ih =>
    intro r hnd
    rw [groupKeys_cons, List.nodup_cons] at hnd
    by_cases hg : groupKey g = rowKey r
    · rw [show insertGroupRow (g :: gs) r = addRowToGroup g r :: gs from by
          simp [insertGroupRow, hg],
        groupKeys_cons, groupKey_addRowToGroup, List.nodup_cons]
      exact hnd
    · rw [show insertGroupRow (g :: gs) r = g :: insertGroupRow gs r from by
          simp [insertGroupRow, hg],
        groupKeys_cons, List.nodup_cons]
      refine ⟨fun hmem => ?_, ih r hnd.2⟩
      rcases mem_groupKeys_insertGroupRow gs r (groupKey g) hmem with h | h
      · exact hnd.1 h
      · exact hg h

lemma nodup_groupKeys_foldl :
    ∀ (rows : List MaterialRow) (acc : List RowGroup),
      (groupKeys acc).Nodup → (groupKeys (rows.foldl insertGroupRow acc)).Nodup := by
  intro rows
  induction rows with
  | nil => intro acc h; exact h
  | cons r rs ih =>
    intro acc h
    exact ih (insertGroupRow acc r) (nodup_groupKeys_insertGroupRow acc r h)

lemma findGroup_self :
    ∀ (l : List RowGroup), (groupKeys l).Nodup →
      ∀ g ∈ l, findGroup (groupKey g) l = some g := by
  intro l
  induction l with
  | nil => intro _ g hg; exact absurd hg (List.not_mem_nil g)
  | cons g' gs ih =>
    intro hnd g hg
    simp only [groupKeys, List.map_cons, List.nodup_cons] at hnd
    rcases List.mem_cons.mp hg with rfl | hgs
    · simp [findGroup]
    · have hne : groupKey g' ≠ groupKey g := fun h =>
        hnd.1 (h ▸ (List.mem_map_of_mem groupKey hgs))
      rw [findGroup, if_neg hne]
      exact ih hnd.2 g hgs

lemma addRows_field (f : RowGroup → ℚ) (fr : MaterialRow → ℚ)
    (hf : ∀ g r, f (addRowToGroup g r) = f g + fr r) :
    ∀ (l : List MaterialRow) (g : RowGroup),
      f (addRows g l) = f g + (l.map fr).sum := by
  intro l
  induction l with
  | nil => intro g; simp [addRows_nil]
  | cons r rs ih =>
    intro g
    rw [addRows_cons, ih, hf]
    simp [add_assoc]

lemma addRows_rowsField :
    ∀ (l : List MaterialRow) (g : RowGroup), (addRows g l).rows = g.rows ++ l := by
  intro l
  induction l with
  | nil => intro g; simp [addRows_nil]
  | cons r rs ih =>
    intro g
    rw [addRows_cons, ih]
    simp [addRowToGroup]

lemma sum_map_insertGroupRow (f : RowGroup → ℚ) (fr : MaterialRow → ℚ)
    (hf : ∀ g r, f (addRowToGroup g r) = f g + fr r)
    (hz : ∀ r, f (emptyGroup r) = 0) :
    ∀ (acc : List RowGroup) (r : MaterialRow),
      ((insertGroupRow acc r).map f).sum = (acc.map f).sum + fr r := by
  intro acc
  induction acc with
  | nil => intro r; simp [insertGroupRow, hf, hz]
  | cons g gs ih =>
    intro r
    by_cases hg : groupKey g = rowKey r
    · simp only [insertGroupRow, hg, if_true, List.map_cons, List.sum_cons, hf]
      ring
    · simp only [insertGroupRow, hg, if_false, List.map_cons, List.sum_cons, ih]
      ring

lemma sum_map_foldl (f : RowGroup → ℚ) (fr : MaterialRow → ℚ)
    (hf : ∀ g r, f (addRowToGroup g r) = f g + fr r)
    (hz : ∀ r, f (emptyGroup r) = 0) :
    ∀ (rows : List MaterialRow) (acc : List RowGroup),
      ((rows.foldl insertGroupRow acc).map f).sum
        = (acc.map f).sum + (rows.map fr).sum := by
  intro rows
  induction rows with
  | nil => intro acc; simp
  | cons r rs ih =>
    intro acc
    rw [List.foldl_cons, ih, sum_map_insertGroupRow f fr hf hz]
    simp [add_assoc]

/-- C5: in the grouped view every group's quantity, mass, CO2, UBP and
energy aggregates equal the arithmetic sums of those fields over the
group's member-row list, that list is exactly the rows of the collection
with the group's key, and the group masses sum to the total row mass —
the view is a pure recomputation from the current rows. -/
theorem C5_group_aggregates (rows : List MaterialRow) :
    (∀ g ∈ groupData true rows,
      g.rows = rows.filter (fun r => rowKey r = groupKey g) ∧
      g.quantity = (g.rows.map (·.quantity)).sum ∧
      g.kg = (g.rows.map (·.kg)).sum ∧
      g.co2 = (g.rows.map (·.co2)).sum ∧
      g.ubp = (g.rows.map (·.ubp)).sum ∧
      g.kwh = (g.rows.map (·.kwh)).sum) ∧
    ((groupData true rows).map (·.kg)).sum = (rows.map (·.kg)).sum := by
  constructor
  · intro g hg
    have hnd : (groupKeys (rows.foldl insertGroupRow [])).Nodup :=
      nodup_groupKeys_foldl rows [] (by simp [groupKeys])
    have hmem : g ∈ rows.foldl insertGroupRow [] := by simpa [groupData] using hg
    have hfind := findGroup_self _ hnd g hmem
    rw [findGroup_foldl (groupKey g) rows []] at hfind
    simp only [findGroup] at hfind
    rcases hfilter : rows.filter (fun r => rowKey r = groupKey g) with _ | ⟨r, rs⟩
    · rw [hfilter] at hfind
      exact absurd hfind (by simp)
    · rw [hfilter] at hfind
      have hg_eq : g = addRows (addRowToGroup (emptyGroup r) r) rs := by
        injection hfind with h
        exact h.symm
      have hrows : g.rows = r :: rs := by
        rw [hg_eq, addRows_rowsField]
        simp [addRowToGroup, emptyGroup]
      refine ⟨hrows, ?_, ?_, ?_, ?_, ?_⟩
      · rw [hrows, hg_eq,
          addRows_field (fun g => g.quantity) (fun r => r.quantity) (fun _ _ => rfl)]
        simp [addRowToGroup, emptyGroup]
      · rw [hrows, hg_eq, addRows_field (fun g => g.kg) (fun r => r.kg) (fun _ _ => rfl)]
        simp [addRowToGroup, emptyGroup]
      · rw [hrows, hg_eq, addRows_field (fun g => g.co2) (fun r => r.co2) (fun _ _ => rfl)]
        simp [addRowToGroup, emptyGroup]
      · rw [hrows, hg_eq, addRows_field (fun g => g.ubp) (fun r => r.ubp) (fun _ _ => rfl)]
        simp [addRowToGroup, emptyGroup]
      · rw [hrows, hg_eq, addRows_field (fun g => g.kwh) (fun r => r.kwh) (fun _ _ => rfl)]
        simp [addRowToGroup, emptyGroup]
  · have := sum_map_foldl (·.kg) (·.kg) (fun _ _ => rfl) (fun _ => rfl) rows []
    simpa [groupData] using this

/-- C5 witness: on three concrete rows of which the first and third share
the key, the grouped view's first group aggregates both member rows
exactly, and the group masses sum to the row masses (60 = 10 + 20 + 30). -/
theorem C5_witness :
    (∃ g ∈ groupData true [c5w1, c5w2, c5w3],
      g.rows = [c5w1, c5w3] ∧ g.kg = 40 ∧ g.quantity = 4) ∧
    ((groupData true [c5w1, c5w2, c5w3]).map (fun g => g.kg)).sum
      = ([c5w1, c5w2, c5w3].map (fun r => r.kg)).sum := by
  have h := C5_group_aggregates [c5w1, c5w2, c5w3]
  constructor
  · obtain ⟨g1, hg1⟩ :
        ∃ g, groupData true [c5w1, c5w2, c5w3]
          = [g, addRows (addRowToGroup (emptyGroup c5w2) c5w2) []] ∧
          g = addRows (addRowToGroup (emptyGroup c5w1) c5w1) [c5w3] := by
      refine ⟨addRows (addRowToGroup (emptyGroup c5w1) c5w1) [c5w3], ?_, rfl⟩
      simp +decide [groupData, insertGroupRow, addRows, groupKey, rowKey,
        emptyGroup, addRowToGroup, c5w1, c5w2, c5w3]
    have hmem : g1 ∈ groupData true [c5w1, c5w2, c5w3] := by
      rw [hg1.1]
      exact List.mem_cons_self _ _
    have hfacts := h.1 g1 hmem
    refine ⟨g1, hmem, ?_, ?_, ?_⟩
    · rw [hg1.2, addRows_rowsField]
      simp [addRowToGroup, emptyGroup]
    · rw [hg1.2, addRows_field (fun g => g.kg) (fun r => r.kg) (fun _ _ => rfl)]
      simp [addRowToGroup, emptyGroup, c5w1, c5w3]
      norm_num
    · rw [hg1.2,
        addRows_field (fun g => g.quantity) (fun r => r.quantity) (fun _ _ => rfl)]
      simp [addRowToGroup, emptyGroup, c5w1, c5w3]
      norm_num
  · rw [h.2]
